import Mathlib

/-!
Shallow embedding in Lean 4 of the core of `server.py` from the
vishal123-cmd/ollama-chat repository: the Redis-backed history store
(`append_history`, `get_history`, `ensure_system_message`,
`get_all_sessions`), the streaming generation pipeline
(`generate_with_ollama`) and the websocket receive loop's per-message
dispatch (`websocket_endpoint`).

Conventions of the embedding:
* Redis state for one `(uuid, session_id)` pair is a `SessionState`:
  the message list stored at `chat:{uuid}:{session_id}` and the
  optional metadata hash stored at `chatmeta:{uuid}:{session_id}`
  (`none` means the hash key does not exist, which is how Redis
  represents a hash that was never written).
* Python's `int(time.time())` is modelled by explicit `Nat` parameters.
  `append_history` calls `time.time()` twice (once for the message
  entry, once for the metadata hash), so it takes two parameters.
* Python string slicing `content[:n]` is `pySlice n content`;
  truthiness of `s.strip()` is `stripTruthy s` (Python strips the six
  ASCII whitespace characters; exotic Unicode whitespace is out of
  scope of the model).
* The Ollama byte stream consumed by `generate_with_ollama` is a list
  of `StreamLine`s followed by a `StreamEnd`: the stream is exhausted
  normally, or `asyncio.CancelledError` is raised at the next await
  point, or some other exception is raised (timeout, non-2xx, send
  failure outside the per-chunk try, redis failure).  Each line is
  blank (skipped by the `continue`), malformed JSON (logged and
  skipped by the inner `except`), or a parsed chunk carrying the
  string `data.get("message", \x7b\x7d).get("content", "")`.
* Events sent over the websocket are accumulated in a list.
-/

namespace OllamaChat

/-- Python string slicing `s[:n]` on a `str`. -/
def pySlice (n : Nat) (s : String) : String :=
  ⟨s.data.take n⟩

/-- The six whitespace characters stripped by Python's `str.strip()`
for ASCII text. -/
def isPyWhitespace (c : Char) : Bool :=
  c = ' ' || c = '\t' || c = '\n' || c = '\r' || c = '\x0b' || c = '\x0c'

/-- Truthiness of Python's `s.strip()`: true iff `s` contains at least
one non-whitespace character. -/
def stripTruthy (s : String) : Bool :=
  s.data.any (fun c => !(isPyWhitespace c))

/-- One JSON entry of the Redis list `chat:{uuid}:{session_id}`, as
built by `append_history` in `server.py`. -/
structure ChatEntry where
  role : String
  content : String
  timestamp : Nat
  deriving DecidableEq, Repr

/-- The Redis hash `chatmeta:{uuid}:{session_id}`.  The `title` field
is `Option String` because an assistant-role append on a fresh session
creates the hash without a `title` field. -/
structure SessionMeta where
  session_id : String
  title : Option String
  preview : String
  updated_at : Nat
  deriving DecidableEq, Repr

/-- The Redis state of one `(uuid, session_id)` pair: the message list
and the metadata hash (`none` when the hash key does not exist). -/
structure SessionState where
  log : List ChatEntry
  meta : Option SessionMeta
  deriving DecidableEq, Repr

/-- A session before anything was written to Redis. -/
def emptySession : SessionState := ⟨[], none⟩

/-- Truthiness of `meta.get("title")` in `append_history`: falsy when
the hash does not exist, has no `title` field, or the title is `""`. -/
def titleFalsy (m : Option SessionMeta) : Bool :=
  match m with
  | none => true
  | some mt =>
    match mt.title with
    | none => true
    | some t => t.isEmpty

/-- The value `meta["title"]` read by `append_history` (only reached
when `titleFalsy` is false, so the default is never observed). -/
def titleGet (m : Option SessionMeta) : String :=
  ((m.bind fun mt => mt.title).getD "")

/-- The `title` field of the metadata hash, `none` when the hash or
the field is absent. -/
def titleField (m : Option SessionMeta) : Option String :=
  m.bind fun mt => mt.title

/-- The `preview` field of the metadata hash. -/
def previewField (m : Option SessionMeta) : Option String :=
  m.map fun mt => mt.preview

/-- The `updated_at` field of the metadata hash. -/
def updatedField (m : Option SessionMeta) : Option Nat :=
  m.map fun mt => mt.updated_at

/-- Embedding of `append_history(uuid, session_id, role, content)` of
`server.py` acting on the session's Redis state.  `tE` is the
`int(time.time())` stored in the message entry, `tM` the one stored in
the metadata hash.  The entry is pushed onto the list; then for
`role == "user"` the hash is written with all four fields (the title
kept unless `meta.get("title")` is falsy), for `role == "assistant"`
the hash is written without touching the `title` field, and for any
other role the hash is left alone. -/
def append_history (sid role content : String) (tE tM : Nat)
    (st : SessionState) : SessionState :=
  let log' := st.log ++ [⟨role, content, tE⟩]
  let meta' : Option SessionMeta :=
    if role = "user" then
      some { session_id := sid
             title := some (if titleFalsy st.meta then pySlice 32 content
                            else titleGet st.meta)
             preview := pySlice 64 content
             updated_at := tM }
    else if role = "assistant" then
      some { session_id := sid
             title := titleField st.meta
             preview := pySlice 64 content
             updated_at := tM }
    else st.meta
  ⟨log', meta'⟩

/-- Embedding of `get_history(uuid, session_id)`: the full message
list in insertion order. -/
def get_history (st : SessionState) : List ChatEntry :=
  st.log

/-- The fixed system prompt seeded by `ensure_system_message`. -/
def DEFAULT_PROMPT : String := "You are a helpful assistant."

/-- Embedding of `ensure_system_message(uuid, session_id)`: when the
message list is empty, append one system-role message with the fixed
default prompt; otherwise do nothing. -/
def ensure_system_message (sid : String) (tE tM : Nat)
    (st : SessionState) : SessionState :=
  if st.log.isEmpty then
    append_history sid "system" DEFAULT_PROMPT tE tM st
  else st

/-- The Redis state of one user: the sessions keyed by session id.  A
session appears here as soon as any of its keys was written; a session
no code ever touched is simply absent (equivalently present with
`emptySession`, which holds no Redis key either). -/
def UserState := List (String × SessionState)

/-- Embedding of `get_all_sessions(uuid)`: collect the metadata hashes
that exist (`KEYS chatmeta:uuid:*` finds exactly the sessions whose
hash was written, and `if meta:` re-checks non-emptiness), then sort
by `int(updated_at)` descending.  Python's stable `list.sort` is
modelled by `List.mergeSort`, which is also a stable sort. -/
def get_all_sessions (u : UserState) : List SessionMeta :=
  (u.filterMap fun p => p.2.meta).mergeSort
    (fun a b => Nat.ble b.updated_at a.updated_at)

/-- One websocket event sent to the client by the chat endpoint. -/
inductive Event where
  | session_id (sid : String)
  | response_chunk (content : String)
  | response_end
  | stopped
  | error (content : String)
  deriving DecidableEq, Repr

/-- The terminal event kinds of a generation run. -/
def isTerminal : Event → Bool
  | .response_end => true
  | .stopped => true
  | .error _ => true
  | _ => false

/-- One line of the Ollama response byte stream as the `async for`
loop of `generate_with_ollama` sees it: blank (skipped by the
`continue`), not valid JSON (the inner `except` logs and skips it), or
parsed, contributing the chunk string `data.get("message", \x7b\x7d)
.get("content", "")` (possibly `""` when the fields are absent). -/
inductive StreamLine where
  | blank
  | malformed
  | chunk (s : String)
  deriving DecidableEq, Repr

/-- How the streaming loop of `generate_with_ollama` ends after the
listed lines were consumed: the stream is exhausted normally,
`asyncio.CancelledError` is raised (the task was cancelled), or some
other exception is raised with message `msg` (timeout, non-2xx,
stream abort, redis failure). -/
inductive StreamEnd where
  | exhausted
  | cancelled
  | failed (msg : String)
  deriving DecidableEq, Repr

/-- The chunk string a line contributes to `full_response` (blank and
malformed lines contribute nothing). -/
def chunkOf : StreamLine → String
  | .chunk s => s
  | _ => ""

/-- The value of the accumulator `full_response` after consuming the
given lines. -/
def accumulate : List StreamLine → String
  | [] => ""
  | l :: ls => chunkOf l ++ accumulate ls

/-- The `response_chunk` events emitted while consuming the given
lines: one per parsed line, carrying only that line's fragment. -/
def chunkEvents : List StreamLine → List Event
  | [] => []
  | .chunk s :: ls => .response_chunk s :: chunkEvents ls
  | _ :: ls => chunkEvents ls

/-- The terminal event `generate_with_ollama` sends for each way the
stream ends. -/
def terminalOf : StreamEnd → Event
  | .exhausted => .response_end
  | .cancelled => .stopped
  | .failed m => .error m

/-- Embedding of one run of `generate_with_ollama(uuid, session_id,
websocket)` of `server.py`.  It first runs `ensure_system_message`
(with times `tS1`, `tS2`) and reads the history, then consumes the
stream, accumulating `full_response` and emitting one `response_chunk`
event per parsed line.  On normal exhaustion it appends the full
accumulator as one assistant message (times `tE`, `tM`) and sends
`response_end`; on `asyncio.CancelledError` it appends the accumulator
only when `full_response.strip()` is truthy and sends `stopped`; on
any other exception it appends nothing and sends `error`.  The result
is the session's Redis state after the run and the list of events sent,
in order. -/
def generate_with_ollama (sid : String) (lines : List StreamLine)
    (stop : StreamEnd) (tS1 tS2 tE tM : Nat) (st : SessionState) :
    SessionState × List Event :=
  let st1 := ensure_system_message sid tS1 tS2 st
  let full_response := accumulate lines
  let evs := chunkEvents lines
  match stop with
  | .exhausted =>
    (append_history sid "assistant" full_response tE tM st1,
     evs ++ [.response_end])
  | .cancelled =>
    if stripTruthy full_response then
      (append_history sid "assistant" full_response tE tM st1,
       evs ++ [.stopped])
    else (st1, evs ++ [.stopped])
  | .failed m => (st1, evs ++ [.error m])

/-- Whether the websocket connection is still open after handling one
inbound payload. -/
inductive ConnStatus where
  | OPEN
  | CLOSED
  deriving DecidableEq, Repr

/-- The receive loop's per-connection state: the session's Redis state
and whether a generation task handle is registered and alive in the
`ConnectionManager`. -/
structure ConnState where
  session : SessionState
  taskAlive : Bool
  deriving DecidableEq, Repr

/-- One inbound websocket payload, as `websocket_endpoint` classifies
it: not valid JSON (`json.JSONDecodeError`), valid JSON that is not an
object (so `message.get` raises `AttributeError`), or a JSON object
with its optional `"type"` and `"content"` string fields. -/
inductive Inbound where
  | notJson
  | nonObject
  | objMsg (typ : Option String) (content : Option String)
  deriving DecidableEq, Repr

/-- The outcome of handling one inbound payload in the receive loop of
`websocket_endpoint`. -/
structure StepResult where
  status : ConnStatus
  state : ConnState
  events : List Event
  deriving DecidableEq, Repr

/-- Embedding of one iteration of the receive loop of
`websocket_endpoint` on an OPEN connection.  Invalid JSON is caught by
the inner `except json.JSONDecodeError` and ignored.  A JSON object of
kind `user_message` with a `content` field appends the user message
(times `t1`, `t2`) and registers a fresh generation task (the task's
own run is modelled by `generate_with_ollama`); without a `content`
field, `message["content"]` raises `KeyError`, which escapes to the
outer `except Exception`, so the manager tears the session down and
the loop exits.  A non-object payload likewise raises
(`AttributeError` on `.get`) and tears the connection down.  A
`stop_generation` object cancels the live task, answering with an
immediate `stopped` event when one was cancelled.  Any other JSON
object matches no branch and is silently skipped. -/
def handle_inbound (msg : Inbound) (t1 t2 : Nat) (cs : ConnState) :
    StepResult :=
  match msg with
  | .notJson => ⟨.OPEN, cs, []⟩
  | .nonObject => ⟨.CLOSED, ⟨cs.session, false⟩, []⟩
  | .objMsg typ content =>
    if typ = some "user_message" then
      match content with
      | none => ⟨.CLOSED, ⟨cs.session, false⟩, []⟩
      | some c =>
        ⟨.OPEN, ⟨append_history "" "user" c t1 t2 cs.session, true⟩, []⟩
    else if typ = some "stop_generation" then
      ⟨.OPEN, cs, if cs.taskAlive then [.stopped] else []⟩
    else ⟨.OPEN, cs, []⟩

/-- One recorded call to `append_history`, used to state append-only
properties of the history store. -/
structure AppendCall where
  sid : String
  role : String
  content : String
  tE : Nat
  tM : Nat
  deriving DecidableEq, Repr

/-- The message entry a call to `append_history` pushes. -/
def entryOf (c : AppendCall) : ChatEntry :=
  ⟨c.role, c.content, c.tE⟩

/-- Replay a sequence of `append_history` calls in order. -/
def applyAppends (calls : List AppendCall) (st : SessionState) :
    SessionState :=
  calls.foldl
    (fun s c => append_history c.sid c.role c.content c.tE c.tM s) st

/-- Modelled from the spec: "preview: text (last 64 chars of most
recent message)" — the last `n` characters of a string, used only to
compare the spec's wording with what the code computes. -/
def lastChars (n : Nat) (s : String) : String :=
  ⟨s.data.drop (s.data.length - n)⟩

end OllamaChat

namespace OllamaChat

/-! Helper lemmas shared by several claims. -/

/-- The message-list effect of `append_history`: one entry is pushed at
the end, nothing else changes in the list. -/
theorem append_history_log (sid role content : String) (tE tM : Nat)
    (st : SessionState) :
    (append_history sid role content tE tM st).log
      = st.log ++ [⟨role, content, tE⟩] := rfl

/-- No `response_chunk` event is terminal. -/
theorem chunkEvents_countP_terminal :
    ∀ lines : List StreamLine,
      (chunkEvents lines).countP (fun e => isTerminal e) = 0
  | [] => rfl
  | .blank :: ls => chunkEvents_countP_terminal ls
  | .malformed :: ls => chunkEvents_countP_terminal ls
  | .chunk s :: ls => by
    show List.countP (fun e => isTerminal e)
      (Event.response_chunk s :: chunkEvents ls) = 0
    rw [List.countP_cons, chunkEvents_countP_terminal ls]
    rfl

/-- Every way the stream can end maps to a terminal event kind. -/
theorem isTerminal_terminalOf (stop : StreamEnd) :
    isTerminal (terminalOf stop) = true := by
  cases stop <;> rfl

/-- `ensure_system_message` only ever extends the message list. -/
theorem ensure_system_message_log_extends (sid : String) (t1 t2 : Nat)
    (st : SessionState) :
    ∃ tail, (ensure_system_message sid t1 t2 st).log = st.log ++ tail := by
  unfold ensure_system_message
  by_cases h : st.log.isEmpty
  · exact ⟨[⟨"system", DEFAULT_PROMPT, t1⟩], by simp [h, append_history_log]⟩
  · exact ⟨[], by simp [h]⟩

end OllamaChat

namespace OllamaChat

/-- C6: `ensure_system_message` is idempotent.  On a session with an
empty message list it appends exactly one system-role message with the
fixed default prompt and leaves the metadata hash alone; on a session
with at least one message of any role it is a no-op; composing two
calls gives exactly the state of the first call. -/
theorem ensure_seeded_idempotent (sid : String) (t1 t2 t3 t4 : Nat)
    (st : SessionState) :
    (st.log = [] →
      (ensure_system_message sid t1 t2 st).log
        = [⟨"system", DEFAULT_PROMPT, t1⟩] ∧
      (ensure_system_message sid t1 t2 st).meta = st.meta) ∧
    (st.log ≠ [] → ensure_system_message sid t1 t2 st = st) ∧
    ensure_system_message sid t3 t4 (ensure_system_message sid t1 t2 st)
      = ensure_system_message sid t1 t2 st := by
  obtain ⟨log, meta⟩ := st
  cases log with
  | nil =>
    refine ⟨?_, ?_, ?_⟩
    · intro _
      exact ⟨rfl, rfl⟩
    · intro h
      exact absurd rfl h
    · rfl
  | cons a as =>
    refine ⟨?_, ?_, ?_⟩
    · intro h
      exact nomatch h
    · intro _
      rfl
    · rfl

/-- C6 witness: the rules hold on a concrete empty and a concrete
non-empty session. -/
theorem ensure_seeded_idempotent_witness :
    (ensure_system_message "s" 5 5 emptySession).log
      = [⟨"system", DEFAULT_PROMPT, 5⟩] ∧
    ensure_system_message "s" 9 9 ⟨[⟨"user", "hi", 1⟩], none⟩
      = ⟨[⟨"user", "hi", 1⟩], none⟩ :=
  ⟨((ensure_seeded_idempotent "s" 5 5 0 0 emptySession).1 rfl).1,
   (ensure_seeded_idempotent "s" 9 9 0 0 ⟨[⟨"user", "hi", 1⟩], none⟩).2.1
     (by decide)⟩

/-- C7: the message log is append-only.  Replaying any sequence of
`append_history` calls yields exactly those entries, in call order,
appended to whatever was there before (so from an empty session,
exactly the N appended messages in order); `ensure_system_message` and
a full `generate_with_ollama` run (normal, cancelled or failed) only
ever extend the list, never editing or removing an entry. -/
theorem history_append_only :
    (∀ (calls : List AppendCall) (st : SessionState),
      get_history (applyAppends calls st)
        = get_history st ++ calls.map entryOf) ∧
    (∀ (sid : String) (t1 t2 : Nat) (st : SessionState), ∃ tail,
      (ensure_system_message sid t1 t2 st).log = st.log ++ tail) ∧
    (∀ (sid : String) (lines : List StreamLine) (stop : StreamEnd)
        (tS1 tS2 tE tM : Nat) (st : SessionState), ∃ tail,
      (generate_with_ollama sid lines stop tS1 tS2 tE tM st).1.log
        = st.log ++ tail) := by
  refine ⟨?_, ensure_system_message_log_extends, ?_⟩
  · intro calls
    induction calls with
    | nil => intro st; simp [applyAppends, get_history]
    | cons c cs ih =>
      intro st
      show get_history
        (applyAppends cs (append_history c.sid c.role c.content c.tE c.tM st))
          = _
      rw [ih]
      simp [get_history, append_history_log, entryOf]
  · intro sid lines stop tS1 tS2 tE tM st
    obtain ⟨tail0, h0⟩ := ensure_system_message_log_extends sid tS1 tS2 st
    cases stop with
    | exhausted =>
      exact ⟨tail0 ++ [⟨"assistant", accumulate lines, tE⟩], by
        simp [generate_with_ollama, append_history_log, h0]⟩
    | cancelled =>
      by_cases hs : stripTruthy (accumulate lines)
      · exact ⟨tail0 ++ [⟨"assistant", accumulate lines, tE⟩], by
          simp [generate_with_ollama, hs, append_history_log, h0]⟩
      · exact ⟨tail0, by simp [generate_with_ollama, hs, h0]⟩
    | failed m => exact ⟨tail0, by simp [generate_with_ollama, h0]⟩

/-- C1 (amended): every `generate_with_ollama` run emits the chunk
events followed by exactly one terminal event, which is the last event
sent; the history commit preceding it is the full accumulator on
normal exhaustion, the accumulator exactly when it contains a
non-whitespace character on cancellation, and nothing at all on an
error — the error path loses the partial text. -/
theorem generation_single_terminal_commit
    (sid : String) (lines : List StreamLine) (stop : StreamEnd)
    (tS1 tS2 tE tM : Nat) (st : SessionState) :
    (generate_with_ollama sid lines stop tS1 tS2 tE tM st).2
      = chunkEvents lines ++ [terminalOf stop] ∧
    ((generate_with_ollama sid lines stop tS1 tS2 tE tM st).2).countP
      (fun e => isTerminal e) = 1 ∧
    ((generate_with_ollama sid lines stop tS1 tS2 tE tM st).2).getLast?
      = some (terminalOf stop) ∧
    isTerminal (terminalOf stop) = true ∧
    (generate_with_ollama sid lines stop tS1 tS2 tE tM st).1.log
      = (ensure_system_message sid tS1 tS2 st).log ++
        (match stop with
         | .exhausted => [⟨"assistant", accumulate lines, tE⟩]
         | .cancelled =>
           if stripTruthy (accumulate lines) then
             [⟨"assistant", accumulate lines, tE⟩]
           else []
         | .failed _ => []) := by
  have hev : (generate_with_ollama sid lines stop tS1 tS2 tE tM st).2
      = chunkEvents lines ++ [terminalOf stop] := by
    cases stop with
    | exhausted => rfl
    | cancelled =>
      by_cases hs : stripTruthy (accumulate lines) <;>
        simp [generate_with_ollama, terminalOf, hs]
    | failed m => rfl
  refine ⟨hev, ?_, ?_, isTerminal_terminalOf stop, ?_⟩
  · rw [hev, List.countP_append, chunkEvents_countP_terminal]
    simp [List.countP_cons, isTerminal_terminalOf]
  · rw [hev]
    exact List.getLast?_concat _
  · cases stop with
    | exhausted => simp [generate_with_ollama, append_history_log]
    | cancelled =>
      by_cases hs : stripTruthy (accumulate lines) <;>
        simp [generate_with_ollama, hs, append_history_log]
    | failed m => simp [generate_with_ollama]

/-- C1 counterexample: a run that received the fragment `"Hi"` and then
failed emits the `error` terminal event, but the session history holds
only the seeded system message — the accumulated partial text was not
appended before the error event, contradicting the claim. -/
theorem generation_error_no_commit_cex :
    accumulate [StreamLine.chunk "Hi"] = "Hi" ∧
    (generate_with_ollama "s" [StreamLine.chunk "Hi"]
        (StreamEnd.failed "boom") 0 0 0 0 emptySession)
      = (⟨[⟨"system", DEFAULT_PROMPT, 0⟩], none⟩,
         [Event.response_chunk "Hi", Event.error "boom"]) :=
  ⟨rfl, rfl⟩

/-- C2 (amended): on cancellation, when the accumulator contains at
least one non-whitespace character, exactly one assistant message
whose content is the concatenation of all received fragments is
appended and then the single `stopped` terminal is emitted; when the
accumulator is empty or consists only of whitespace, nothing is
committed and only the `stopped` event is emitted. -/
theorem cancelled_commit_rule
    (sid : String) (lines : List StreamLine) (tS1 tS2 tE tM : Nat)
    (st : SessionState) :
    (stripTruthy (accumulate lines) = true →
      (generate_with_ollama sid lines StreamEnd.cancelled
          tS1 tS2 tE tM st).1.log
        = (ensure_system_message sid tS1 tS2 st).log
          ++ [⟨"assistant", accumulate lines, tE⟩]) ∧
    (stripTruthy (accumulate lines) = false →
      (generate_with_ollama sid lines StreamEnd.cancelled
          tS1 tS2 tE tM st).1
        = ensure_system_message sid tS1 tS2 st) ∧
    (generate_with_ollama sid lines StreamEnd.cancelled
        tS1 tS2 tE tM st).2
      = chunkEvents lines ++ [Event.stopped] := by
  refine ⟨fun hs => ?_, fun hs => ?_, ?_⟩
  · simp [generate_with_ollama, hs, append_history_log]
  · simp [generate_with_ollama, hs]
  · by_cases hs : stripTruthy (accumulate lines) <;>
      simp [generate_with_ollama, hs]

/-- C2 witness: cancelling after the single fragment `"a"` commits one
assistant message with content `"a"`. -/
theorem cancelled_commit_rule_witness :
    stripTruthy (accumulate [StreamLine.chunk "a"]) = true ∧
    (generate_with_ollama "s" [StreamLine.chunk "a"] StreamEnd.cancelled
        0 0 1 2 emptySession).1.log
      = (ensure_system_message "s" 0 0 emptySession).log
        ++ [⟨"assistant", accumulate [StreamLine.chunk "a"], 1⟩] :=
  ⟨by decide,
   (cancelled_commit_rule "s" [StreamLine.chunk "a"] 0 0 1 2
     emptySession).1 (by decide)⟩

/-- C2 counterexample: cancelling after the single fragment `" "`
leaves a non-empty accumulator, yet no assistant message is appended —
the history still holds only the seeded system message — refuting the
claim that every non-empty accumulator is committed. -/
theorem cancelled_nonempty_not_committed_cex :
    accumulate [StreamLine.chunk " "] = " " ∧ (" " : String) ≠ "" ∧
    (generate_with_ollama "s" [StreamLine.chunk " "] StreamEnd.cancelled
        0 0 0 0 emptySession)
      = (⟨[⟨"system", DEFAULT_PROMPT, 0⟩], none⟩,
         [Event.response_chunk " ", Event.stopped]) :=
  ⟨rfl, by decide, rfl⟩

/-- C9: normal stream exhaustion always commits exactly one assistant
message, even when no usable fragment arrived: with an empty
accumulator the run appends an assistant message with empty content
and then emits `response_end`. -/
theorem normal_completion_commits_even_empty
    (sid : String) (lines : List StreamLine) (tS1 tS2 tE tM : Nat)
    (st : SessionState) (hAcc : accumulate lines = "") :
    (generate_with_ollama sid lines StreamEnd.exhausted
        tS1 tS2 tE tM st).1.log
      = (ensure_system_message sid tS1 tS2 st).log
        ++ [⟨"assistant", "", tE⟩] ∧
    (generate_with_ollama sid lines StreamEnd.exhausted
        tS1 tS2 tE tM st).2
      = chunkEvents lines ++ [Event.response_end] := by
  constructor
  · simp [generate_with_ollama, append_history_log, hAcc]
  · rfl

/-- C9 witness: a stream consisting of one blank line commits an
assistant message with empty content. -/
theorem normal_completion_commits_even_empty_witness :
    accumulate [StreamLine.blank] = "" ∧
    (generate_with_ollama "s" [StreamLine.blank] StreamEnd.exhausted
        0 0 3 4 emptySession).1.log
      = (ensure_system_message "s" 0 0 emptySession).log
        ++ [⟨"assistant", "", 3⟩] :=
  ⟨rfl,
   (normal_completion_commits_even_empty "s" [StreamLine.blank]
     0 0 3 4 emptySession rfl).1⟩

/-- C10: on cancellation the accumulator is committed exactly when it
contains a non-whitespace character, the last event is `stopped`, and
in particular a non-empty but all-whitespace accumulator is discarded:
the session state is exactly what it was after seeding. -/
theorem cancelled_whitespace_discard
    (sid : String) (lines : List StreamLine) (tS1 tS2 tE tM : Nat)
    (st : SessionState) :
    ((generate_with_ollama sid lines StreamEnd.cancelled
        tS1 tS2 tE tM st).1.log
      = if stripTruthy (accumulate lines) then
          (ensure_system_message sid tS1 tS2 st).log
            ++ [⟨"assistant", accumulate lines, tE⟩]
        else (ensure_system_message sid tS1 tS2 st).log) ∧
    ((generate_with_ollama sid lines StreamEnd.cancelled
        tS1 tS2 tE tM st).2).getLast? = some Event.stopped ∧
    (accumulate lines ≠ "" → stripTruthy (accumulate lines) = false →
      (generate_with_ollama sid lines StreamEnd.cancelled
          tS1 tS2 tE tM st).1
        = ensure_system_message sid tS1 tS2 st) := by
  refine ⟨?_, ?_, fun _ hs => by simp [generate_with_ollama, hs]⟩
  · by_cases hs : stripTruthy (accumulate lines) <;>
      simp [generate_with_ollama, hs, append_history_log]
  · by_cases hs : stripTruthy (accumulate lines) <;>
      simp [generate_with_ollama, hs, List.getLast?_concat]

/-- C10 witness: cancelling after the single all-whitespace fragment
`"\t"` (a non-empty accumulator) commits nothing. -/
theorem cancelled_whitespace_discard_witness :
    accumulate [StreamLine.chunk "\t"] ≠ "" ∧
    stripTruthy (accumulate [StreamLine.chunk "\t"]) = false ∧
    (generate_with_ollama "s" [StreamLine.chunk "\t"] StreamEnd.cancelled
        0 0 1 2 emptySession).1
      = ensure_system_message "s" 0 0 emptySession :=
  ⟨by decide, by decide,
   (cancelled_whitespace_discard "s" [StreamLine.chunk "\t"]
     0 0 1 2 emptySession).2.2 (by decide) (by decide)⟩

end OllamaChat

namespace OllamaChat

/-- When `meta.get("title")` is truthy, the value `meta["title"]` it
returns is exactly the stored title field. -/
theorem titleGet_of_not_falsy (m : Option SessionMeta)
    (h : titleFalsy m = false) : some (titleGet m) = titleField m := by
  cases m with
  | none => exact Bool.noConfusion h
  | some mt =>
    obtain ⟨s, title, p, ud⟩ := mt
    cases title with
    | none => exact Bool.noConfusion h
    | some t => rfl

/-- C3 (amended): an inbound payload that is not valid JSON is ignored
and the connection stays OPEN with nothing changed, and so is a JSON
object whose kind is neither `user_message` nor `stop_generation`; but
a `user_message` object lacking its `content` field, or a valid-JSON
payload that is not an object, raises out of the inner handler — the
connection is torn down (CLOSED, task handle dropped) and the receive
loop exits. -/
theorem malformed_inbound_handling (t1 t2 : Nat) (cs : ConnState) :
    handle_inbound Inbound.notJson t1 t2 cs
      = ⟨ConnStatus.OPEN, cs, []⟩ ∧
    (∀ (typ : Option String) (content : Option String),
      typ ≠ some "user_message" → typ ≠ some "stop_generation" →
      handle_inbound (Inbound.objMsg typ content) t1 t2 cs
        = ⟨ConnStatus.OPEN, cs, []⟩) ∧
    handle_inbound (Inbound.objMsg (some "user_message") none) t1 t2 cs
      = ⟨ConnStatus.CLOSED, ⟨cs.session, false⟩, []⟩ ∧
    handle_inbound Inbound.nonObject t1 t2 cs
      = ⟨ConnStatus.CLOSED, ⟨cs.session, false⟩, []⟩ := by
  refine ⟨rfl, ?_, rfl, rfl⟩
  intro typ content h1 h2
  simp [handle_inbound, h1, h2]

/-- C3 witness: an object of unknown kind `"ping"` is ignored on a
concrete connection state. -/
theorem malformed_inbound_handling_witness :
    handle_inbound (Inbound.objMsg (some "ping") none) 0 0
        ⟨emptySession, false⟩
      = ⟨ConnStatus.OPEN, ⟨emptySession, false⟩, []⟩ :=
  (malformed_inbound_handling 0 0 ⟨emptySession, false⟩).2.1
    (some "ping") none (by decide) (by decide)

/-- C3 counterexample: the recognized kind `user_message` with its
`content` field missing does not leave the connection OPEN — the
`KeyError` escapes the JSON-decode handler and the connection is torn
down, refuting the claim. -/
theorem user_message_missing_content_cex :
    (handle_inbound (Inbound.objMsg (some "user_message") none) 0 0
        ⟨emptySession, false⟩).status = ConnStatus.CLOSED ∧
    ConnStatus.CLOSED ≠ ConnStatus.OPEN :=
  ⟨rfl, by decide⟩

/-- C4 (amended): an append with role `user` or `assistant` upserts
the metadata hash, setting `preview` to the FIRST 64 characters of the
appended content and refreshing `updated_at` to the append's
metadata-side timestamp; an append with any other role (in particular
`system`) leaves the metadata hash untouched. -/
theorem append_meta_upsert (sid content : String) (tE tM : Nat)
    (st : SessionState) :
    previewField ((append_history sid "user" content tE tM st).meta)
      = some (pySlice 64 content) ∧
    updatedField ((append_history sid "user" content tE tM st).meta)
      = some tM ∧
    previewField ((append_history sid "assistant" content tE tM st).meta)
      = some (pySlice 64 content) ∧
    updatedField ((append_history sid "assistant" content tE tM st).meta)
      = some tM ∧
    (∀ role, role ≠ "user" → role ≠ "assistant" →
      (append_history sid role content tE tM st).meta = st.meta) := by
  refine ⟨rfl, rfl, rfl, rfl, ?_⟩
  intro role h1 h2
  simp [append_history, h1, h2]

/-- C4 witness: an append with role `system` leaves the (absent)
metadata hash absent. -/
theorem append_meta_upsert_witness :
    (append_history "s" "system" "x" 0 0 emptySession).meta
      = emptySession.meta :=
  (append_meta_upsert "s" "x" 0 0 emptySession).2.2.2.2 "system"
    (by decide) (by decide)

/-- A 65-character content string whose first 64 characters differ
from its last 64 characters. -/
def longContent : String :=
  "0123456789012345678901234567890123456789012345678901234567890123X"

/-- C4 counterexample: a system-role append performs no meta upsert at
all (the hash stays absent), and for a user-role append the stored
preview is the first 64 characters of the content, not the last 64 as
the claim states. -/
theorem append_meta_upsert_cex :
    (append_history "s" "system" "hello" 0 0 emptySession).meta = none ∧
    previewField ((append_history "s" "user" longContent 0 0
        emptySession).meta) = some (pySlice 64 longContent) ∧
    pySlice 64 longContent ≠ lastChars 64 longContent := by
  refine ⟨rfl, rfl, ?_⟩
  decide

/-- C8 (amended): a user-role append sets the title to the first 32
characters of its content whenever the stored title is unset or empty,
and leaves it alone otherwise; assistant-role appends never touch the
title field and other roles never touch the hash.  So the title is
fixed from the first user append with non-empty content on, but a
user append with empty content stores an empty title that a later
user append overwrites. -/
theorem title_upsert_rule (sid content : String) (tE tM : Nat)
    (st : SessionState) :
    (titleFalsy st.meta = true →
      titleField ((append_history sid "user" content tE tM st).meta)
        = some (pySlice 32 content)) ∧
    (titleFalsy st.meta = false →
      titleField ((append_history sid "user" content tE tM st).meta)
        = titleField st.meta) ∧
    titleField ((append_history sid "assistant" content tE tM st).meta)
      = titleField st.meta ∧
    (∀ role, role ≠ "user" → role ≠ "assistant" →
      (append_history sid role content tE tM st).meta = st.meta) := by
  refine ⟨?_, ?_, rfl, ?_⟩
  · intro h
    simp [append_history, titleField, h]
  · intro h
    simp [append_history, titleField, h]
    exact (titleGet_of_not_falsy st.meta h).symm ▸ rfl
  · intro role h1 h2
    simp [append_history, h1, h2]

/-- C8 witness: on a fresh session the first user append sets the
title to the first 32 characters of its content. -/
theorem title_upsert_rule_witness :
    titleFalsy emptySession.meta = true ∧
    titleField ((append_history "s" "user" "hi" 0 0 emptySession).meta)
      = some (pySlice 32 "hi") :=
  ⟨rfl, (title_upsert_rule "s" "hi" 0 0 emptySession).1 rfl⟩

/-- C8 counterexample: a first user append with empty content stores
the empty title, and a second user append then overwrites it — the
title is not set exactly once, refuting the claim. -/
theorem title_reset_on_empty_cex :
    titleField ((append_history "s" "user" "" 0 0 emptySession).meta)
      = some "" ∧
    titleField ((append_history "s" "user" "next" 1 1
        (append_history "s" "user" "" 0 0 emptySession)).meta)
      = some "next" ∧
    (some "next" : Option String) ≠ some "" := by
  refine ⟨rfl, rfl, by decide⟩

/-- C5 (amended): `get_all_sessions` returns, sorted by `updated_at`
descending, exactly the metadata records that exist — a permutation of
the metas of the user's sessions that have one.  A metadata record is
created by user- and assistant-role appends only; seeding a session
with its system message creates none, so a session whose only message
is the seeded system message is NOT returned. -/
theorem list_sessions_sorted (u : UserState) :
    (get_all_sessions u).Pairwise
      (fun a b => b.updated_at ≤ a.updated_at) ∧
    (get_all_sessions u).Perm (u.filterMap fun p => p.2.meta) ∧
    (∀ (sid : String) (t1 t2 : Nat) (st : SessionState),
      st.meta = none → (ensure_system_message sid t1 t2 st).meta = none) ∧
    (∀ (sid content : String) (tE tM : Nat) (st : SessionState),
      (∃ m, (append_history sid "user" content tE tM st).meta = some m) ∧
      (∃ m, (append_history sid "assistant" content tE tM st).meta
        = some m)) := by
  refine ⟨?_, ?_, ?_, ?_⟩
  · refine List.Pairwise.imp (fun h => Nat.le_of_ble_eq_true h) ?_
    exact @List.sorted_mergeSort SessionMeta
      (fun a b => Nat.ble b.updated_at a.updated_at)
      (fun a b c hab hbc => Nat.ble_eq_true_of_le
        (Nat.le_trans (Nat.le_of_ble_eq_true hbc)
          (Nat.le_of_ble_eq_true hab)))
      (fun a b => by
        cases Nat.le_total b.updated_at a.updated_at with
        | inl hle => simp [Nat.ble_eq_true_of_le hle]
        | inr hle => simp [Nat.ble_eq_true_of_le hle])
      (u.filterMap fun p => p.2.meta)
  · exact List.mergeSort_perm _ _
  · intro sid t1 t2 st h
    unfold ensure_system_message
    by_cases he : st.log.isEmpty
    · rw [if_pos he]
      exact h
    · rw [if_neg he]
      exact h
  · intro sid content tE tM st
    exact ⟨⟨_, rfl⟩, ⟨_, rfl⟩⟩

/-- C5 witness: seeding a fresh session leaves the metadata hash
absent. -/
theorem list_sessions_sorted_witness :
    (ensure_system_message "s1" 0 0 emptySession).meta = none :=
  (list_sessions_sorted []).2.2.1 "s1" 0 0 emptySession rfl

/-- C5 counterexample: a session whose only message is the seeded
system message has a non-empty message log, yet `get_all_sessions`
for its user returns the empty list — the session is not listed,
refuting the claim. -/
theorem seeded_only_session_unlisted_cex :
    (ensure_system_message "s1" 0 0 emptySession).log ≠ [] ∧
    get_all_sessions [("s1", ensure_system_message "s1" 0 0 emptySession)]
      = [] := by
  constructor
  · decide
  · simp [get_all_sessions, ensure_system_message, append_history,
      emptySession]

end OllamaChat
